import Mathlib

/-!
Verification of the `body_metrics` measurement pipeline.

This file gives a shallow embedding, over `ℚ`, of the calculation functions
(`calculations.py`), the coordinator's polling-tick logic (`coordinator.py`)
and the guest-reassignment service handler (`__init__.py`), and proves the
specification's claims about them.

Python `float` values are modelled as exact rationals; `round(x, n)` is
modelled by `pyRoundTo n` (round-half-to-even, as Python's `round` ties).
Timestamps are modelled as rational epoch seconds.
-/

namespace BodyMetrics

/-- Python `round(x)`: nearest integer, ties to even. -/
def pyRoundInt (x : ℚ) : ℤ :=
  if x - ⌊x⌋ < 1/2 then ⌊x⌋
  else if x - ⌊x⌋ > 1/2 then ⌊x⌋ + 1
  else if ⌊x⌋ % 2 = 0 then ⌊x⌋ else ⌊x⌋ + 1

/-- Python `round(x, n)` for `n` decimal digits. -/
def pyRoundTo (n : ℕ) (x : ℚ) : ℚ :=
  (pyRoundInt (x * 10 ^ n) : ℚ) / 10 ^ n

/-- Python `int(x)` on a float: truncation toward zero. -/
def pyInt (x : ℚ) : ℤ :=
  if x < 0 then ⌈x⌉ else ⌊x⌋

/-! ## `calculations.py` -/

/-- `calc_bmi` from `calculations.py`. -/
def calc_bmi (weight height_cm : ℚ) : ℚ :=
  let height_m := height_cm / 100
  if height_m ≤ 0 then 0
  else pyRoundTo 1 (weight / (height_m ^ 2))

/-- `_lbm_coefficient` from `calculations.py` (note the final
`min(lbm, weight * 0.95)` cap). -/
def lbm_coefficient (weight height_cm age impedance : ℚ) : ℚ :=
  let lbm := (height_cm * 9.058 / 100) * (height_cm / 100)
    + weight * 0.32 + 12.226
    - impedance * 0.0068
    - age * 0.0542
  min lbm (weight * 0.95)

/-- The lean-body-mass formula exactly as the specification words it
(no cap): `(height_cm·9.058/100)·(height_cm/100) + weight·0.32 + 12.226
− impedance·0.0068 − age·0.0542`. -/
def spec_lbm_formula (weight height_cm age impedance : ℚ) : ℚ :=
  (height_cm * 9.058 / 100) * (height_cm / 100)
    + weight * 0.32 + 12.226
    - impedance * 0.0068
    - age * 0.0542

/-- `calc_body_fat_pct` from `calculations.py`. -/
def calc_body_fat_pct (weight height_cm age : ℚ) (sex : String) (impedance : ℚ) : ℚ :=
  if weight ≤ 0 then 0
  else
    let lbm := lbm_coefficient weight height_cm age impedance
    let coeff : ℚ := if sex = "male" then 0.055 else 0.025
    let fat_pct := (1 - (((lbm - (impedance * coeff / 100 * (30 - age))) / weight) * 1.1)) * 100
    pyRoundTo 1 (max 3 (min 60 fat_pct))

/-- `calc_bone_mass` from `calculations.py`, before the final rounding. -/
def calc_bone_mass_unrounded (weight height_cm age : ℚ) (sex : String) (impedance : ℚ) : ℚ :=
  let lbm := lbm_coefficient weight height_cm age impedance
  let base : ℚ := if sex = "male" then 0.18016894 else 0.245691014
  let bone := (base - lbm * 0.05158) * (-1)
  let bone := if bone > 2.2 then bone + 0.1 else bone - 0.1
  let max_bone := min (if sex = "male" then (5.1 : ℚ) else 4.2) (weight * 0.15)
  let min_bone := max 0.1 (weight * 0.01)
  max min_bone (min max_bone bone)

/-- `calc_bone_mass` from `calculations.py`. -/
def calc_bone_mass (weight height_cm age : ℚ) (sex : String) (impedance : ℚ) : ℚ :=
  pyRoundTo 1 (calc_bone_mass_unrounded weight height_cm age sex impedance)

/-- `calc_muscle_mass` from `calculations.py`, before the final rounding. -/
def calc_muscle_mass_unrounded (weight height_cm age : ℚ) (sex : String) (impedance : ℚ) : ℚ :=
  let fat_pct := calc_body_fat_pct weight height_cm age sex impedance
  let bone := calc_bone_mass weight height_cm age sex impedance
  let muscle := weight - ((fat_pct / 100) * weight) - bone
  max (weight * 0.25) (min (weight * 0.75) muscle)

/-- `calc_muscle_mass` from `calculations.py`. -/
def calc_muscle_mass (weight height_cm age : ℚ) (sex : String) (impedance : ℚ) : ℚ :=
  pyRoundTo 1 (calc_muscle_mass_unrounded weight height_cm age sex impedance)

/-- `calc_bmr` from `calculations.py` (Mifflin-St Jeor). -/
def calc_bmr (weight height_cm age : ℚ) (sex : String) : ℚ :=
  let bmr := 10 * weight + 6.25 * height_cm - 5 * age
  let bmr := if sex = "male" then bmr + 5 else bmr - 161
  (pyRoundInt (max 0 bmr) : ℚ)

/-- `calc_visceral_fat` from `calculations.py`. -/
def calc_visceral_fat (weight height_cm age : ℚ) (sex : String) : ℚ :=
  let height_m := height_cm / 100
  if height_m ≤ 0 then 1
  else
    let vf :=
      if sex = "male" then
        if age ≤ 30 then (weight * 0.74 - height_cm * 0.082 + 13.95) * 0.55
        else (weight * 0.74 - height_cm * 0.082 + 13.95) * 0.55 + (age - 30) * 0.1
      else
        if age ≤ 30 then (weight * 0.74 - height_cm * 0.082 + 13.95) * 0.44
        else (weight * 0.74 - height_cm * 0.082 + 13.95) * 0.44 + (age - 30) * 0.07
    (pyRoundInt (max 1 (min 59 vf)) : ℚ)

/-- `calc_ideal_weight` from `calculations.py` (Devine). -/
def calc_ideal_weight (height_cm : ℚ) (sex : String) : ℚ :=
  let height_in := height_cm / 2.54
  let ideal := if sex = "male" then 50 + 2.3 * (height_in - 60) else 45.5 + 2.3 * (height_in - 60)
  pyRoundTo 1 (max 0 ideal)

/-- `get_body_type` from `calculations.py`. -/
def get_body_type (body_fat_pct muscle_mass weight : ℚ) (sex : String) : String :=
  if weight ≤ 0 then "Balanced"
  else
    let muscle_ratio := muscle_mass / weight
    let fat_low : ℚ := if sex = "male" then 15 else 22
    let fat_high : ℚ := if sex = "male" then 25 else 32
    let muscle_low : ℚ := if sex = "male" then 0.38 else 0.30
    let muscle_high : ℚ := if sex = "male" then 0.46 else 0.37
    if body_fat_pct > fat_high then
      if muscle_ratio ≥ muscle_high then "Thick-set"
      else if muscle_ratio ≥ muscle_low then "Overweight"
      else "Obese"
    else if body_fat_pct ≥ fat_low then
      if muscle_ratio ≥ muscle_high then "Balanced-muscular"
      else if muscle_ratio ≥ muscle_low then "Balanced"
      else "Lack of exercise"
    else
      if muscle_ratio ≥ muscle_high then "Skinny-muscular"
      else if muscle_ratio ≥ muscle_low then "Balanced-skinny"
      else "Skinny"

/-- `calc_water_pct` from `calculations.py`. -/
def calc_water_pct (weight height_cm age : ℚ) (sex : String) (impedance : ℚ) : ℚ :=
  let fat_pct := calc_body_fat_pct weight height_cm age sex impedance
  let water := (100 - fat_pct) * 0.7
  let coeff : ℚ := if water > 50 then 0.98 else 1.02
  let water := water * coeff
  pyRoundTo 1 (max 5 (min 80 water))

/-! ## Association-list dictionaries

Python `dict`s keyed by person slug are modelled as association lists;
`dictSet` mirrors `d[k] = v` (replace in place, or append a new key at the
end — Python insertion order). -/

/-- First-occurrence lookup in an association list (`d.get(k)`). -/
def alookup {β : Type} (k : String) : List (String × β) → Option β
  | [] => none
  | (k', v) :: rest => if k' = k then some v else alookup k rest

/-- `d[k] = v` on a Python dict with unique keys: replace the first
occurrence in place, else append at the end. -/
def dictSet {β : Type} : List (String × β) → String → β → List (String × β)
  | [], k, v => [(k, v)]
  | (k', v') :: rest, k, v =>
    if k' = k then (k, v) :: rest else (k', v') :: dictSet rest k v

/-! ## `coordinator.py`: sensor-value parsing -/

/-- Python `\s` whitespace characters (ASCII range). -/
def isPySpace (c : Char) : Bool :=
  c = ' ' ∨ c = '\t' ∨ c = '\n' ∨ c = '\r' ∨ c = '\x0b' ∨ c = '\x0c'

/-- Numeric value of a digit string. -/
def digitsToNat (ds : List Char) : ℕ :=
  ds.foldl (fun n c => 10 * n + (c.toNat - '0'.toNat)) 0

/-- `_parse_float` from `coordinator.py`: leading-anchored match of
`[\s]*([-+]?\d*\.?\d+)` with arbitrary trailing text ignored, converted to
a number. The greedy regex takes the maximal run of leading digits, then a
dot only when at least one digit follows it. -/
def parse_float (s : String) : Option ℚ :=
  let cs := s.toList.dropWhile isPySpace
  let signed : ℚ × List Char :=
    match cs with
    | '-' :: rest => (-1, rest)
    | '+' :: rest => (1, rest)
    | _ => (1, cs)
  let sign := signed.1
  let cs := signed.2
  let intDigits := cs.takeWhile Char.isDigit
  let rest := cs.dropWhile Char.isDigit
  match rest with
  | '.' :: rest2 =>
    let fracDigits := rest2.takeWhile Char.isDigit
    if fracDigits = [] then
      if intDigits = [] then none
      else some (sign * (digitsToNat intDigits : ℚ))
    else
      some (sign * ((digitsToNat intDigits : ℚ)
        + (digitsToNat fracDigits : ℚ) / 10 ^ fracDigits.length))
  | _ =>
    if intDigits = [] then none
    else some (sign * (digitsToNat intDigits : ℚ))

/-! ## `coordinator.py`: person matching -/

/-- `DEFAULT_TOLERANCE` from `const.py`. -/
def DEFAULT_TOLERANCE : ℚ := 8

/-- `DEFAULT_EMA_ALPHA` from `const.py`. -/
def DEFAULT_EMA_ALPHA : ℚ := 0.2

/-- A person profile, with the `person.get(KEY, default)` defaults of
`coordinator.py` materialised as fields. -/
structure Person where
  name : String
  height_cm : ℚ := 170
  age : ℚ := 30
  sex : String := "male"
  expected_weight : ℚ := 0
  expected_impedance : ℚ := 0
  tolerance : ℚ := DEFAULT_TOLERANCE
deriving DecidableEq

/-- The matcher's score (`coordinator.py` lines 172-174):
`|weight − expected_weight|·1.5 + |(impedance or 0) − expected_impedance|·0.02`. -/
def score (weight : ℚ) (impedance : Option ℚ) (p : Person) : ℚ :=
  |weight - p.expected_weight| * 1.5 + |impedance.getD 0 - p.expected_impedance| * 0.02

/-- One iteration of the matcher loop (`coordinator.py` lines 167-178):
update `best`/`best_score` when `score < tolerance and score < best_score`
(an empty accumulator stands for `best_score = inf`). -/
def matchStep (weight : ℚ) (impedance : Option ℚ)
    (acc : Option (Person × ℚ)) (p : Person) : Option (Person × ℚ) :=
  let s := score weight impedance p
  match acc with
  | none => if s < p.tolerance then some (p, s) else none
  | some (b, bs) => if s < p.tolerance ∧ s < bs then some (p, s) else some (b, bs)

/-- The matcher loop of `_async_update_data` (`coordinator.py` lines 163-178). -/
def findBestPerson (weight : ℚ) (impedance : Option ℚ) (people : List Person) :
    Option (Person × ℚ) :=
  people.foldl (matchStep weight impedance) none

/-- A profile qualifies when its score is strictly under its own tolerance. -/
def qualifies (weight : ℚ) (impedance : Option ℚ) (p : Person) : Prop :=
  score weight impedance p < p.tolerance

instance (weight : ℚ) (impedance : Option ℚ) (p : Person) :
    Decidable (qualifies weight impedance p) := by
  unfold qualifies; infer_instance

/-- The confidence clamp (`coordinator.py` line 209):
`max(0.0, min(100.0, 100.0 - best_score))`. -/
def clampConfidence (best_score : ℚ) : ℚ :=
  max 0 (min 100 (100 - best_score))

/-- First argmin of `f` over a list: the earliest element attaining the
minimum key (a later element replaces the current best only when strictly
smaller). -/
def argminBy {α : Type} (f : α → ℚ) : List α → Option α
  | [] => none
  | a :: l =>
    match argminBy f l with
    | none => some a
    | some b => if f b < f a then some b else some a

/-! ## `coordinator.py`: smoothing, history, trend -/

/-- Per-slug EMA state (`self._smoothed[slug]`, a dict that may lack either
key). -/
structure SmoothVals where
  weight : Option ℚ := none
  impedance : Option ℚ := none
deriving DecidableEq

/-- The EMA smoothing block (`coordinator.py` lines 194-207): returns the
`(smoothed_weight, smoothed_impedance)` pair and the updated per-slug state. -/
def smoothUpdate (sv : SmoothVals) (weight : ℚ) (impedance : Option ℚ) :
    (ℚ × Option ℚ) × SmoothVals :=
  let alpha := DEFAULT_EMA_ALPHA
  let prev_w := sv.weight.getD weight
  let smoothed_weight := alpha * weight + (1 - alpha) * prev_w
  match impedance with
  | none => ((smoothed_weight, none), { sv with weight := some smoothed_weight })
  | some imp =>
    let prev_i := sv.impedance.getD imp
    let smoothed_impedance := alpha * imp + (1 - alpha) * prev_i
    ((smoothed_weight, some smoothed_impedance),
      ⟨some smoothed_weight, some smoothed_impedance⟩)

/-- A weight-history entry: UTC timestamp (epoch seconds) and rounded weight. -/
structure HistEntry where
  ts : ℚ
  weight : ℚ
deriving DecidableEq

/-- Append a history entry and trim to the most recent 365
(`coordinator.py` lines 262-267). -/
def appendTrim (h : List HistEntry) (e : HistEntry) : List HistEntry :=
  let h := h ++ [e]
  if h.length > 365 then h.drop (h.length - 365) else h

/-- The last `n` elements of a list. -/
def lastN {α : Type} (n : ℕ) (l : List α) : List α :=
  l.drop (l.length - n)

/-- One iteration of a first-argmin scan: keep the current best unless the
new element's key is strictly smaller (an empty accumulator stands for
`best_delta = inf`). -/
def argminStep {α : Type} (f : α → ℚ) (acc : Option (α × ℚ)) (e : α) :
    Option (α × ℚ) :=
  match acc with
  | none => some (e, f e)
  | some (b, bd) => if f e < bd then some (e, f e) else some (b, bd)

/-- The best-entry scan of `_calc_weight_trend` (`coordinator.py` lines
115-123): first entry minimising `delta = |ts − target|` (the loop's
`if delta < best_delta` keeps the earlier entry on ties). -/
def bestEntryFold (target : ℚ) (entries : List HistEntry) :
    Option (HistEntry × ℚ) :=
  entries.foldl (argminStep (fun e => |e.ts - target|)) none

/-- `_calc_weight_trend` from `coordinator.py` (lines 105-133), with the
slug's history passed explicitly and timestamps as epoch seconds. -/
def calc_weight_trend (entries : List HistEntry) (now current_weight : ℚ)
    (days : ℤ) : Option ℚ :=
  if entries = [] then none
  else
    match bestEntryFold (now - (days : ℚ) * 86400) entries with
    | none => none
    | some (best_entry, _) =>
      if now - best_entry.ts < (days : ℚ) * 86400 * 0.5 then none
      else some (pyRoundTo 1 (current_weight - best_entry.weight))

/-! ## `coordinator.py`: the polling tick -/

/-- A snapshot/event field value: a number or a string. -/
inductive PVal where
  | num (q : ℚ)
  | str (s : String)
deriving DecidableEq

/-- A `person_data` snapshot: the dict built at `coordinator.py` lines
211-251, in insertion order, with `None` fields as `none`. -/
abbrev Snapshot := List (String × Option PVal)

/-- The per-slug result map (`result["people"]`). -/
abbrev PeopleMap := List (String × Snapshot)

/-- The `person_data` dict as first built (`coordinator.py` lines 211-251),
before the last-measurement timestamp and trend fields are added. -/
def basePersonData (smoothed_weight : ℚ) (smoothed_impedance : Option ℚ)
    (height age : ℚ) (sex : String) (confidence : ℚ) : Snapshot :=
  [("weight", some (.num (pyRoundTo 2 smoothed_weight))),
   ("impedance", smoothed_impedance.map (fun x => .num (pyRoundTo 1 x))),
   ("bmi", some (.num (calc_bmi smoothed_weight height))),
   ("confidence", some (.num (pyRoundTo 1 confidence))),
   ("bmr", some (.num (calc_bmr smoothed_weight height age sex))),
   ("ideal_weight", some (.num (calc_ideal_weight height sex)))]
  ++ match smoothed_impedance with
    | some imp =>
      let fat_pct := calc_body_fat_pct smoothed_weight height age sex imp
      let muscle := calc_muscle_mass smoothed_weight height age sex imp
      [("body_fat", some (.num fat_pct)),
       ("muscle_mass", some (.num muscle)),
       ("water_pct", some (.num (calc_water_pct smoothed_weight height age sex imp))),
       ("bone_mass", some (.num (calc_bone_mass smoothed_weight height age sex imp))),
       ("visceral_fat", some (.num (calc_visceral_fat smoothed_weight height age sex))),
       ("body_type", some (.str (get_body_type fat_pct muscle smoothed_weight sex)))]
    | none =>
      [("body_fat", none),
       ("muscle_mass", none),
       ("water_pct", none),
       ("bone_mass", none),
       ("visceral_fat", none),
       ("body_type", none)]

/-- An emitted event payload (`coordinator.py` lines 271-278): slug, owning
entry id, then every non-null field of `person_data` at that point. -/
def eventPayload (slug entry_id : String) (pd : Snapshot) : List (String × PVal) :=
  ("person", .str slug) :: ("entry_id", .str entry_id)
    :: pd.filterMap (fun kv => kv.2.map (fun v => (kv.1, v)))

/-- New-measurement test (`coordinator.py` line 256):
`prev_weight is None or abs(smoothed_weight - prev_weight) > 0.1`. -/
def newMeasurement (prev_weight : Option ℚ) (smoothed_weight : ℚ) : Bool :=
  match prev_weight with
  | none => true
  | some pw => if |smoothed_weight - pw| > 0.1 then true else false

/-- Result of the new-measurement block. -/
structure MeasResult where
  last_matched : List (String × ℚ)
  history : List (String × List HistEntry)
  saved : Bool
  events : List (List (String × PVal))
deriving DecidableEq

/-- The new-measurement detection block (`coordinator.py` lines 253-278):
on detection, record the smoothed weight as last matched, append the
rounded weight to the slug's history (trimmed to 365), schedule a debounced
save and fire the measurement event; otherwise change nothing. -/
def measurementBlock (slug entry_id : String)
    (last_matched : List (String × ℚ))
    (history : List (String × List HistEntry))
    (now smoothed_weight : ℚ) (pd : Snapshot) : MeasResult :=
  let prev_weight := alookup slug last_matched
  if newMeasurement prev_weight smoothed_weight then
    let h := (alookup slug history).getD []
    let h := appendTrim h ⟨now, pyRoundTo 2 smoothed_weight⟩
    { last_matched := dictSet last_matched slug smoothed_weight,
      history := dictSet history slug h,
      saved := true,
      events := [eventPayload slug entry_id pd] }
  else
    { last_matched := last_matched, history := history,
      saved := false, events := [] }

/-- The coordinator's mutable state plus the framework-held `self.data`
(`None` before the first completed refresh). -/
structure CoordState where
  smoothed : List (String × SmoothVals)
  history : List (String × List HistEntry)
  last_matched : List (String × ℚ)
  data : Option PeopleMap
deriving DecidableEq

/-- A config entry: `entry.data` sensor references and `entry.options`
people list. -/
structure Config where
  weight_sensor : Option String
  impedance_sensor : Option String
  people : List Person
  entry_id : String

/-- Sensor reading (`coordinator.py` lines 136-159): `none` when the tick
must short-circuit (weight entity not configured/absent/unavailable/
unparseable); otherwise the parsed weight and best-effort impedance. -/
def readSensors (states : String → Option String)
    (weight_sensor impedance_sensor : Option String) : Option (ℚ × Option ℚ) :=
  match weight_sensor with
  | none => none
  | some we =>
    if we = "" then none
    else
      match states we with
      | none => none
      | some ws =>
        if ws = "unknown" ∨ ws = "unavailable" then none
        else
          match parse_float ws with
          | none => none
          | some w =>
            let imp : Option ℚ :=
              match impedance_sensor with
              | none => none
              | some ie =>
                if ie = "" then none
                else
                  match states ie with
                  | none => none
                  | some istate =>
                    if istate = "unknown" ∨ istate = "unavailable" then none
                    else parse_float istate
            some (w, imp)

/-- A completed tick: the new coordinator state, the returned `people`
map, the fired events and whether a debounced save was scheduled. -/
structure TickResult where
  state : CoordState
  people : PeopleMap
  events : List (List (String × PVal))
  saved : Bool
deriving DecidableEq

/-- A short-circuited tick: `return self.data or {"people": {}}`
(no state change, no events, no save). -/
def noUpdate (st : CoordState) : TickResult :=
  { state := { st with data := some (st.data.getD []) },
    people := st.data.getD [],
    events := [],
    saved := false }

/-- The matched branch of `_async_update_data` (`coordinator.py` lines
188-291). -/
def matchedTick (slugifyFn : String → String) (cfg : Config) (now : ℚ)
    (st : CoordState) (weight : ℚ) (impedance : Option ℚ)
    (best : Person) (best_score : ℚ) : TickResult :=
  let prev_people := st.data.getD []
  let slug := slugifyFn best.name
  let height : ℚ := (pyInt best.height_cm : ℚ)
  let age : ℚ := (pyInt best.age : ℚ)
  let sex := best.sex
  let sv := (alookup slug st.smoothed).getD {}
  let smoothResult := smoothUpdate sv weight impedance
  let smoothed_weight := smoothResult.1.1
  let smoothed_impedance := smoothResult.1.2
  let confidence := clampConfidence best_score
  let pd := basePersonData smoothed_weight smoothed_impedance height age sex confidence
  let meas := measurementBlock slug cfg.entry_id st.last_matched st.history
    now smoothed_weight pd
  let pd := pd ++ [("last_measurement", some (.num now))]
  let hist := (alookup slug meas.history).getD []
  let pd := pd ++
    [("weight_trend_week", (calc_weight_trend hist now smoothed_weight 7).map .num),
     ("weight_trend_month", (calc_weight_trend hist now smoothed_weight 30).map .num)]
  let people := dictSet prev_people slug pd
  { state :=
      { smoothed := dictSet st.smoothed slug smoothResult.2,
        history := meas.history,
        last_matched := meas.last_matched,
        data := some people },
    people := people,
    events := meas.events,
    saved := meas.saved }

/-- One polling tick: `_async_update_data` (`coordinator.py` lines
135-292), with `hass.states` and `slugify` as injected capabilities and
the framework's `self.data = result` write applied. -/
def tick (slugifyFn : String → String) (states : String → Option String)
    (cfg : Config) (now : ℚ) (st : CoordState) : TickResult :=
  match readSensors states cfg.weight_sensor cfg.impedance_sensor with
  | none => noUpdate st
  | some (weight, impedance) =>
    match findBestPerson weight impedance cfg.people with
    | none => noUpdate st
    | some (best, best_score) =>
      matchedTick slugifyFn cfg now st weight impedance best best_score

/-! ## `__init__.py`: the reassign-guest service -/

/-- A guest (unmatched-but-plausible) raw sample. -/
structure GuestSample where
  ts : ℚ
  weight : ℚ
deriving DecidableEq

/-- The slice of coordinator state the guest-reassignment operation
touches: the most recent guest sample and the per-slug history. -/
structure GuestCoord where
  last_guest : Option GuestSample
  history : List (String × List HistEntry)
deriving DecidableEq

/-- Modelled from the spec: `ScaleCoordinator.reassign_guest` is called by
the service handler in `__init__.py` but its implementation (and the
coordinator's guest-sample tracking) is not among the provided sources;
per the spec it "re-attributes the most recent unmatched/guest sample's
derived state to that person", retroactively moving the sample into that
person's history. -/
def reassign_guest (c : GuestCoord) (person : String) : GuestCoord :=
  match c.last_guest with
  | none => c
  | some g =>
    { last_guest := none,
      history := dictSet c.history person
        ((alookup person c.history).getD [] ++ [⟨g.ts, g.weight⟩]) }

/-- `handle_reassign_guest` from `__init__.py` (lines 32-48): with an
explicit entry id, fail when that entry is unknown, else reassign on that
coordinator; without one, fail when no entries are configured, else
reassign on every coordinator. Errors are the raised
`HomeAssistantError` messages. -/
def handle_reassign_guest (coordinators : List (String × GuestCoord))
    (person : String) (entry_id : Option String) :
    Except String (List (String × GuestCoord)) :=
  match entry_id with
  | some eid =>
    match alookup eid coordinators with
    | none => .error ("Config entry '" ++ eid ++ "' not found")
    | some c => .ok (dictSet coordinators eid (reassign_guest c person))
  | none =>
    if coordinators = [] then .error "No body_metrics entries configured"
    else .ok (coordinators.map (fun kc => (kc.1, reassign_guest kc.2 person)))

/-- The spec's example profile P1: expected weight 70, tolerance 8. -/
def specP1 : Person := { name := "P1", expected_weight := 70 }

/-- The spec's example profile P2: expected weight 90, tolerance 8. -/
def specP2 : Person := { name := "P2", expected_weight := 90 }

/-! ## Helper lemmas: rounding -/

theorem pyRoundInt_mono {x y : ℚ} (h : x ≤ y) : pyRoundInt x ≤ pyRoundInt y := by
  have hf : ⌊x⌋ ≤ ⌊y⌋ := Int.floor_le_floor h
  unfold pyRoundInt
  rcases lt_or_eq_of_le hf with hlt | heq
  · split_ifs <;> omega
  · have hr : x - (⌊x⌋ : ℚ) ≤ y - (⌊y⌋ : ℚ) := by
      rw [← heq]; linarith
    rw [← heq]
    split_ifs <;> first | omega | (exfalso; rw [← heq] at hr; linarith)

theorem abs_pyRoundInt_sub (x : ℚ) : |((pyRoundInt x : ℤ) : ℚ) - x| ≤ 1 / 2 := by
  have h1 : (⌊x⌋ : ℚ) ≤ x := Int.floor_le x
  have h2 : x < (⌊x⌋ : ℚ) + 1 := Int.lt_floor_add_one x
  unfold pyRoundInt
  split_ifs <;> rw [abs_le] <;> constructor <;> push_cast <;> linarith

theorem pyRoundTo_mono (n : ℕ) {x y : ℚ} (h : x ≤ y) :
    pyRoundTo n x ≤ pyRoundTo n y := by
  unfold pyRoundTo
  have hp : (0 : ℚ) < 10 ^ n := by positivity
  have h1 : x * 10 ^ n ≤ y * 10 ^ n := by nlinarith
  have h2 := pyRoundInt_mono h1
  have h3 : ((pyRoundInt (x * 10 ^ n) : ℤ) : ℚ) ≤ ((pyRoundInt (y * 10 ^ n) : ℤ) : ℚ) := by
    exact_mod_cast h2
  exact (div_le_div_iff_of_pos_right hp).mpr h3

theorem abs_pyRoundTo_one_sub (x : ℚ) : |pyRoundTo 1 x - x| ≤ 1 / 20 := by
  have h := abs_pyRoundInt_sub (x * 10 ^ 1)
  unfold pyRoundTo
  have h10 : (10 : ℚ) ^ 1 = 10 := by norm_num
  rw [h10] at *
  have heq : ((pyRoundInt (x * 10) : ℤ) : ℚ) / 10 - x
      = (((pyRoundInt (x * 10) : ℤ) : ℚ) - x * 10) / 10 := by ring
  rw [heq, abs_div]
  rw [abs_of_pos (by norm_num : (0:ℚ) < 10)]
  linarith [(div_le_div_iff_of_pos_right (by norm_num : (0:ℚ) < 10)).mpr h]

/-- Transfer clamp bounds through rounding when the bounds are fixed
points of the rounding. -/
theorem pyRoundTo_mem_of (n : ℕ) {lo hi x : ℚ}
    (hl : pyRoundTo n lo = lo) (hh : pyRoundTo n hi = hi)
    (h1 : lo ≤ x) (h2 : x ≤ hi) :
    lo ≤ pyRoundTo n x ∧ pyRoundTo n x ≤ hi :=
  ⟨hl ▸ pyRoundTo_mono n h1, hh ▸ pyRoundTo_mono n h2⟩

/-! ## Helper lemmas: association lists -/

theorem alookup_dictSet_self {β : Type} (m : List (String × β)) (k : String) (v : β) :
    alookup k (dictSet m k v) = some v := by
  induction m with
  | nil => simp [dictSet, alookup]
  | cons kv rest ih =>
    obtain ⟨k', v'⟩ := kv
    by_cases h : k' = k <;> simp [dictSet, alookup, h, ih]

theorem alookup_append_of_none {β : Type} {k : String} {l1 : List (String × β)}
    (l2 : List (String × β)) (h : alookup k l1 = none) :
    alookup k (l1 ++ l2) = alookup k l2 := by
  induction l1 with
  | nil => simp
  | cons kv rest ih =>
    obtain ⟨k', v'⟩ := kv
    by_cases hk : k' = k
    · rw [alookup, if_pos hk] at h
      exact absurd h (by simp)
    · rw [alookup, if_neg hk] at h
      rw [List.cons_append, alookup, if_neg hk]
      exact ih h

/-! ## Helper lemmas: first argmin -/

section Argmin

variable {α : Type} (f : α → ℚ)

theorem argminBy_nil : argminBy f [] = none := rfl

theorem argminBy_cons (a : α) (l : List α) :
    argminBy f (a :: l)
      = match argminBy f l with
        | none => some a
        | some b => if f b < f a then some b else some a := rfl

theorem argminBy_cons_of_none {l : List α} (a : α) (h : argminBy f l = none) :
    argminBy f (a :: l) = some a := by
  rw [argminBy_cons, h]

theorem argminBy_cons_of_some {l : List α} (a : α) {q : α}
    (h : argminBy f l = some q) :
    argminBy f (a :: l) = if f q < f a then some q else some a := by
  rw [argminBy_cons, h]

theorem argminBy_eq_none {l : List α} : argminBy f l = none ↔ l = [] := by
  cases l with
  | nil => simp [argminBy_nil]
  | cons a l =>
    simp only [List.cons_ne_nil, iff_false]
    cases hl : argminBy f l with
    | none => rw [argminBy_cons_of_none f a hl]; simp
    | some q =>
      rw [argminBy_cons_of_some f a hl]
      split_ifs <;> simp

theorem argminBy_isSome {a : α} {l : List α} :
    ∃ q, argminBy f (a :: l) = some q := by
  cases h : argminBy f (a :: l) with
  | none => exact absurd ((argminBy_eq_none f).mp h) (by simp)
  | some q => exact ⟨q, rfl⟩

theorem argminBy_mem {l : List α} {b : α} (h : argminBy f l = some b) : b ∈ l := by
  induction l with
  | nil => simp [argminBy_nil] at h
  | cons a l ih =>
    cases hl : argminBy f l with
    | none =>
      rw [argminBy_cons_of_none f a hl] at h
      obtain rfl : a = b := by injection h
      exact List.mem_cons_self a l
    | some c =>
      rw [argminBy_cons_of_some f a hl] at h
      split_ifs at h with hc
      · obtain rfl : c = b := by injection h
        exact List.mem_cons_of_mem a (ih hl)
      · obtain rfl : a = b := by injection h
        exact List.mem_cons_self a l

theorem argminBy_min {l : List α} {b : α} (h : argminBy f l = some b) :
    ∀ c ∈ l, f b ≤ f c := by
  induction l generalizing b with
  | nil => simp [argminBy_nil] at h
  | cons a l ih =>
    intro c hc
    cases hl : argminBy f l with
    | none =>
      rw [argminBy_cons_of_none f a hl] at h
      obtain rfl : a = b := by injection h
      rcases (argminBy_eq_none f).mp hl with rfl
      rcases List.mem_singleton.mp hc with rfl
      exact le_refl _
    | some d =>
      rw [argminBy_cons_of_some f a hl] at h
      split_ifs at h with hd
      · obtain rfl : d = b := by injection h
        rcases List.mem_cons.mp hc with rfl | hcl
        · exact le_of_lt hd
        · exact ih hl c hcl
      · obtain rfl : a = b := by injection h
        rcases List.mem_cons.mp hc with rfl | hcl
        · exact le_refl _
        · exact (not_lt.mp hd).trans (ih hl c hcl)

/-- The selected element is the first one attaining the minimum: everything
strictly before it has a strictly larger key. -/
theorem argminBy_first {l : List α} {b : α} (h : argminBy f l = some b) :
    ∃ l1 l2, l = l1 ++ b :: l2 ∧ ∀ c ∈ l1, f b < f c := by
  induction l generalizing b with
  | nil => simp [argminBy_nil] at h
  | cons a l ih =>
    cases hl : argminBy f l with
    | none =>
      rw [argminBy_cons_of_none f a hl] at h
      obtain rfl : a = b := by injection h
      exact ⟨[], l, rfl, by simp⟩
    | some d =>
      rw [argminBy_cons_of_some f a hl] at h
      split_ifs at h with hd
      · obtain rfl : d = b := by injection h
        obtain ⟨l1, l2, hsplit, hgt⟩ := ih hl
        refine ⟨a :: l1, l2, by simp [hsplit], ?_⟩
        intro c hc
        rcases List.mem_cons.mp hc with rfl | hcl
        · exact hd
        · exact hgt c hcl
      · obtain rfl : a = b := by injection h
        exact ⟨[], l, rfl, by simp⟩

theorem argminBy_le_head {a : α} {l : List α} {b : α}
    (h : argminBy f (a :: l) = some b) : f b ≤ f a :=
  argminBy_min f h a (List.mem_cons_self a l)

theorem argminBy_cons_cons_lt {b a : α} {l : List α} (h : f a < f b) :
    argminBy f (b :: a :: l) = argminBy f (a :: l) := by
  obtain ⟨q, hq⟩ := argminBy_isSome f (a := a) (l := l)
  have hle : f q ≤ f a := argminBy_le_head f hq
  rw [argminBy_cons_of_some f b hq, if_pos (lt_of_le_of_lt hle h), hq]

theorem argminBy_cons_cons_ge {b a : α} {l : List α} (h : f b ≤ f a) :
    argminBy f (b :: a :: l) = argminBy f (b :: l) := by
  cases hl : argminBy f l with
  | none =>
    have ha : argminBy f (a :: l) = some a := argminBy_cons_of_none f a hl
    rw [argminBy_cons_of_some f b ha, if_neg (not_lt.mpr h),
      argminBy_cons_of_none f b hl]
  | some r =>
    have ha : argminBy f (a :: l) = if f r < f a then some r else some a :=
      argminBy_cons_of_some f a hl
    have hb : argminBy f (b :: l) = if f r < f b then some r else some b :=
      argminBy_cons_of_some f b hl
    by_cases hra : f r < f a
    · rw [if_pos hra] at ha
      rw [argminBy_cons_of_some f b ha, hb]
    · rw [if_neg hra] at ha
      rw [argminBy_cons_of_some f b ha, if_neg (not_lt.mpr h), hb,
        if_neg (fun hc => hra (lt_of_lt_of_le hc h))]

end Argmin

/-! ## Helper lemmas: the matcher fold computes the first argmin among
qualifying profiles -/

theorem matchStep_none (weight : ℚ) (impedance : Option ℚ) (p : Person) :
    matchStep weight impedance none p
      = if score weight impedance p < p.tolerance
          then some (p, score weight impedance p) else none := rfl

theorem matchStep_some (weight : ℚ) (impedance : Option ℚ) (b : Person) (bs : ℚ)
    (p : Person) :
    matchStep weight impedance (some (b, bs)) p
      = if score weight impedance p < p.tolerance ∧ score weight impedance p < bs
          then some (p, score weight impedance p) else some (b, bs) := rfl

theorem foldl_matchStep_some (weight : ℚ) (impedance : Option ℚ) (l : List Person) :
    ∀ b : Person,
      l.foldl (matchStep weight impedance) (some (b, score weight impedance b))
        = (argminBy (score weight impedance)
            (b :: l.filter (fun p => decide (qualifies weight impedance p)))).map
            (fun p => (p, score weight impedance p)) := by
  induction l with
  | nil =>
    intro b
    simp [argminBy_cons_of_none _ b (argminBy_nil _)]
  | cons a l ih =>
    intro b
    rw [List.foldl_cons, matchStep_some]
    by_cases hq : qualifies weight impedance a
    · have hq' : score weight impedance a < a.tolerance := hq
      rw [@List.filter_cons_of_pos Person
        (fun p => decide (qualifies weight impedance p)) a l (by simp [hq])]
      by_cases hlt : score weight impedance a < score weight impedance b
      · rw [if_pos ⟨hq', hlt⟩, ih a,
          argminBy_cons_cons_lt (score weight impedance) hlt]
      · rw [if_neg (fun hc => hlt hc.2), ih b,
          argminBy_cons_cons_ge (score weight impedance) (not_lt.mp hlt)]
    · rw [@List.filter_cons_of_neg Person
        (fun p => decide (qualifies weight impedance p)) a l (by simp [hq]),
        if_neg (fun hc => hq hc.1)]
      exact ih b

/-- The matcher loop selects the first profile attaining the globally
minimal score among the profiles whose score is strictly under their own
tolerance. -/
theorem findBestPerson_eq (weight : ℚ) (impedance : Option ℚ) (people : List Person) :
    findBestPerson weight impedance people
      = (argminBy (score weight impedance)
          (people.filter (fun p => decide (qualifies weight impedance p)))).map
          (fun p => (p, score weight impedance p)) := by
  induction people with
  | nil => simp [findBestPerson, argminBy_nil]
  | cons a l ih =>
    by_cases hq : qualifies weight impedance a
    · have hq' : score weight impedance a < a.tolerance := hq
      rw [findBestPerson, List.foldl_cons, matchStep_none, if_pos hq',
        @List.filter_cons_of_pos Person
          (fun p => decide (qualifies weight impedance p)) a l (by simp [hq])]
      exact foldl_matchStep_some weight impedance l a
    · have hq' : ¬ score weight impedance a < a.tolerance := hq
      rw [findBestPerson, List.foldl_cons, matchStep_none, if_neg hq',
        @List.filter_cons_of_neg Person
          (fun p => decide (qualifies weight impedance p)) a l (by simp [hq])]
      exact ih

/-! ## Helper lemmas: the trend scan computes the first closest entry -/

theorem argminStep_none {α : Type} (f : α → ℚ) (e : α) :
    argminStep f none e = some (e, f e) := rfl

theorem argminStep_some {α : Type} (f : α → ℚ) (b : α) (bd : ℚ) (e : α) :
    argminStep f (some (b, bd)) e
      = if f e < bd then some (e, f e) else some (b, bd) := rfl

theorem foldl_argminStep_some {α : Type} (f : α → ℚ) (l : List α) :
    ∀ b : α,
      l.foldl (argminStep f) (some (b, f b))
      = (argminBy f (b :: l)).map (fun e => (e, f e)) := by
  induction l with
  | nil =>
    intro b
    simp [argminBy_cons_of_none _ b (argminBy_nil _)]
  | cons a l ih =>
    intro b
    rw [List.foldl_cons, argminStep_some]
    by_cases hlt : f a < f b
    · rw [if_pos hlt, ih a, argminBy_cons_cons_lt f hlt]
    · rw [if_neg hlt, ih b, argminBy_cons_cons_ge f (not_lt.mp hlt)]

theorem foldl_argminStep_eq {α : Type} (f : α → ℚ) (l : List α) :
    l.foldl (argminStep f) none
    = (argminBy f l).map (fun e => (e, f e)) := by
  cases l with
  | nil => simp [argminBy_nil]
  | cons a l =>
    rw [List.foldl_cons, argminStep_none]
    exact foldl_argminStep_some f l a

/-- The best-entry scan of `_calc_weight_trend` selects the first entry
whose timestamp is closest (by absolute delta) to the target. -/
theorem bestEntryFold_eq (target : ℚ) (entries : List HistEntry) :
    bestEntryFold target entries
      = (argminBy (fun e => |e.ts - target|) entries).map
          (fun e => (e, |e.ts - target|)) := by
  have h := foldl_argminStep_eq (fun e : HistEntry => |e.ts - target|) entries
  rw [bestEntryFold, h]

/-! ## Helper lemmas: history cap -/

theorem lastN_of_le {α : Type} {n : ℕ} {l : List α} (h : l.length ≤ n) :
    lastN n l = l := by
  rw [lastN, Nat.sub_eq_zero_of_le h, List.drop_zero]

theorem lastN_length_le {α : Type} (n : ℕ) (l : List α) :
    (lastN n l).length ≤ n := by
  rw [lastN, List.length_drop]
  omega

theorem appendTrim_eq_lastN (h : List HistEntry) (e : HistEntry) :
    appendTrim h e = lastN 365 (h ++ [e]) := by
  rw [appendTrim]
  split_ifs with hl
  · rfl
  · rw [lastN_of_le (by omega)]

theorem appendTrim_length_le (h : List HistEntry) (e : HistEntry) :
    (appendTrim h e).length ≤ 365 := by
  rw [appendTrim_eq_lastN]
  exact lastN_length_le 365 _

theorem lastN_append_lastN {α : Type} (n : ℕ) (l l2 : List α) :
    lastN n (lastN n l ++ l2) = lastN n (l ++ l2) := by
  by_cases hl : l.length ≤ n
  · rw [lastN_of_le hl]
  · have hk : l.length - n ≤ l.length := Nat.sub_le _ _
    rw [lastN, lastN, lastN, List.length_append, List.length_append,
      List.length_drop]
    have h1 : l.length - (l.length - n) + l2.length - n = l2.length := by omega
    have h2 : l.length + l2.length - n = (l.length - n) + l2.length := by omega
    rw [h1, h2, ← List.drop_drop, List.drop_append_of_le_length hk]

theorem foldl_appendTrim :
    ∀ (es : List HistEntry) (h0 : List HistEntry), h0.length ≤ 365 →
      List.foldl appendTrim h0 es = lastN 365 (h0 ++ es) := by
  intro es
  induction es with
  | nil =>
    intro h0 hlen
    rw [List.foldl_nil, List.append_nil, lastN_of_le hlen]
  | cons e es ih =>
    intro h0 hlen
    rw [List.foldl_cons, ih (appendTrim h0 e) (appendTrim_length_le h0 e),
      appendTrim_eq_lastN, lastN_append_lastN]
    congr 1
    simp

/-! ## Helper lemmas: concrete evaluations and tick unfolding -/

theorem parse_float_71 : parse_float "71" = some 71 := by
  have h : parse_float "71" = some ((1:ℚ) * (digitsToNat ['7', '1'] : ℚ)) := rfl
  have hd : digitsToNat ['7', '1'] = 71 := by decide
  rw [h, hd]
  norm_num

theorem alookup_append_of_some {β : Type} {k : String} {l1 : List (String × β)}
    {v : β} (l2 : List (String × β)) (h : alookup k l1 = some v) :
    alookup k (l1 ++ l2) = some v := by
  induction l1 with
  | nil => exact absurd h (by simp [alookup])
  | cons kv rest ih =>
    obtain ⟨k', v'⟩ := kv
    by_cases hk : k' = k
    · rw [alookup, if_pos hk] at h
      rw [List.cons_append, alookup, if_pos hk]
      exact h
    · rw [alookup, if_neg hk] at h
      rw [List.cons_append, alookup, if_neg hk]
      exact ih h

theorem alookup_base_none (sw : ℚ) (si : Option ℚ) (h a : ℚ) (sex : String)
    (c : ℚ) {k : String} (hk1 : k ≠ "weight") (hk2 : k ≠ "impedance")
    (hk3 : k ≠ "bmi") (hk4 : k ≠ "confidence") (hk5 : k ≠ "bmr")
    (hk6 : k ≠ "ideal_weight") (hk7 : k ≠ "body_fat") (hk8 : k ≠ "muscle_mass")
    (hk9 : k ≠ "water_pct") (hk10 : k ≠ "bone_mass") (hk11 : k ≠ "visceral_fat")
    (hk12 : k ≠ "body_type") :
    alookup k (basePersonData sw si h a sex c) = none := by
  cases si <;>
    simp [basePersonData, alookup, Ne.symm hk1, Ne.symm hk2, Ne.symm hk3,
      Ne.symm hk4, Ne.symm hk5, Ne.symm hk6, Ne.symm hk7, Ne.symm hk8,
      Ne.symm hk9, Ne.symm hk10, Ne.symm hk11, Ne.symm hk12]

/-- Keys absent from a snapshot stay absent from the filtered event fields. -/
theorem alookup_filterMap_none {k : String} :
    ∀ {pd : Snapshot}, alookup k pd = none →
      alookup k (pd.filterMap (fun kv => kv.2.map (fun v => (kv.1, v)))) = none := by
  intro pd
  induction pd with
  | nil => intro _; rfl
  | cons kv rest ih =>
    obtain ⟨k', v'⟩ := kv
    intro h
    by_cases hk : k' = k
    · rw [alookup, if_pos hk] at h
      exact absurd h (by simp)
    · rw [alookup, if_neg hk] at h
      cases v' with
      | none =>
        have hred : List.filterMap (fun kv => kv.2.map (fun v => (kv.1, v)))
            ((k', (none : Option PVal)) :: rest)
            = List.filterMap (fun kv => kv.2.map (fun v => (kv.1, v))) rest := rfl
        rw [hred]
        exact ih h
      | some w =>
        have hred : List.filterMap (fun kv => kv.2.map (fun v => (kv.1, v)))
            ((k', some w) :: rest)
            = (k', w) :: List.filterMap (fun kv => kv.2.map (fun v => (kv.1, v))) rest := rfl
        rw [hred, alookup, if_neg hk]
        exact ih h

theorem tick_shortCircuit (slugifyFn : String → String)
    (states : String → Option String) (cfg : Config) (now : ℚ) (st : CoordState)
    (h : readSensors states cfg.weight_sensor cfg.impedance_sensor = none) :
    tick slugifyFn states cfg now st = noUpdate st := by
  rw [tick, h]

theorem tick_unmatched (slugifyFn : String → String)
    (states : String → Option String) (cfg : Config) (now : ℚ) (st : CoordState)
    {w : ℚ} {i : Option ℚ}
    (h1 : readSensors states cfg.weight_sensor cfg.impedance_sensor = some (w, i))
    (h2 : findBestPerson w i cfg.people = none) :
    tick slugifyFn states cfg now st = noUpdate st := by
  rw [tick, h1]
  dsimp only
  rw [h2]

theorem tick_matched (slugifyFn : String → String)
    (states : String → Option String) (cfg : Config) (now : ℚ) (st : CoordState)
    {w : ℚ} {i : Option ℚ} {best : Person} {bs : ℚ}
    (h1 : readSensors states cfg.weight_sensor cfg.impedance_sensor = some (w, i))
    (h2 : findBestPerson w i cfg.people = some (best, bs)) :
    tick slugifyFn states cfg now st
      = matchedTick slugifyFn cfg now st w i best bs := by
  rw [tick, h1]
  dsimp only
  rw [h2]

/-! ## Claim C2 -/

/-- Claim C2, counterexample: at weight 10, height 180, age 30,
impedance 0 the helper returns `0.95·weight = 9.5`, not the spec's formula
value `43.14792`: the claim that it returns exactly the formula is false. -/
theorem C2_counterexample :
    lbm_coefficient 10 180 30 0 = 9.5 ∧
    spec_lbm_formula 10 180 30 0 = 43.14792 ∧
    lbm_coefficient 10 180 30 0 ≠ spec_lbm_formula 10 180 30 0 := by
  refine ⟨by norm_num [lbm_coefficient], by norm_num [spec_lbm_formula], ?_⟩
  norm_num [lbm_coefficient, spec_lbm_formula]

/-- Claim C2 (amended): the internal lean-body-mass helper returns the
spec's formula value capped above by `0.95·weight`
(`min(formula, weight*0.95)`), which differs from the bare formula, e.g.
at (10, 180, 30, 0). -/
theorem C2_lbm_coefficient :
    (∀ weight height_cm age impedance : ℚ,
      lbm_coefficient weight height_cm age impedance
        = min (spec_lbm_formula weight height_cm age impedance) (weight * 0.95)) ∧
    lbm_coefficient 10 180 30 0 = 9.5 := by
  constructor
  · intro w h a i
    rfl
  · norm_num [lbm_coefficient]

/-! ## Claim C4 -/

/-- Claim C4: per-slug history never exceeds 365 entries after an append;
appends from an empty history keep exactly the most recent 365 entries in
append order (a suffix of the appended sequence, so the oldest are dropped
first and the surviving order is preserved); with 400 appends exactly the
last 365 remain. -/
theorem C4_history_cap :
    (∀ (h0 : List HistEntry) (e : HistEntry) (es : List HistEntry),
      (List.foldl appendTrim h0 (e :: es)).length ≤ 365) ∧
    (∀ es : List HistEntry,
      List.foldl appendTrim [] es = es.drop (es.length - 365)) ∧
    (∀ es : List HistEntry, es.length = 400 →
      List.foldl appendTrim [] es = es.drop 35) := by
  have hbase : ∀ es : List HistEntry,
      List.foldl appendTrim [] es = es.drop (es.length - 365) := by
    intro es
    have h := foldl_appendTrim es [] (by simp)
    rw [List.nil_append] at h
    exact h
  refine ⟨?_, hbase, ?_⟩
  · intro h0 e es
    rw [List.foldl_cons,
      foldl_appendTrim es (appendTrim h0 e) (appendTrim_length_le h0 e)]
    exact lastN_length_le 365 _
  · intro es hlen
    rw [hbase es, hlen]

/-- Witness for C4 at a concrete 400-entry sequence. -/
theorem C4_history_cap_witness :
    ((List.range 400).map (fun n : ℕ => HistEntry.mk (n : ℚ) (n : ℚ))).length = 400 ∧
    List.foldl appendTrim [] ((List.range 400).map (fun n : ℕ => HistEntry.mk (n : ℚ) (n : ℚ)))
      = ((List.range 400).map (fun n : ℕ => HistEntry.mk (n : ℚ) (n : ℚ))).drop 35 :=
  ⟨by rw [List.length_map, List.length_range],
    C4_history_cap.2.2 _ (by rw [List.length_map, List.length_range])⟩

/-! ## Claim C7 -/

/-- Claim C7: per-slug smoothing is an EMA with fixed α = 0.2 — on the
first observation of a slug the smoothed weight equals the raw value
exactly, on later observations `smoothed = 0.2·raw + 0.8·previous`, the
same for impedance when present, and the stored state is updated to the
new smoothed value; first sample 80 gives exactly 80, a following sample
82 gives 80.4. -/
theorem C7_ema :
    DEFAULT_EMA_ALPHA = 0.2 ∧
    (∀ (w : ℚ) (i : Option ℚ) (sv : SmoothVals), sv.weight = none →
      (smoothUpdate sv w i).1.1 = w) ∧
    (∀ (w pw : ℚ) (i : Option ℚ) (sv : SmoothVals), sv.weight = some pw →
      (smoothUpdate sv w i).1.1 = 0.2 * w + (1 - 0.2) * pw) ∧
    (∀ (w imp : ℚ) (sv : SmoothVals), sv.impedance = none →
      (smoothUpdate sv w (some imp)).1.2 = some imp) ∧
    (∀ (w imp pi : ℚ) (sv : SmoothVals), sv.impedance = some pi →
      (smoothUpdate sv w (some imp)).1.2 = some (0.2 * imp + (1 - 0.2) * pi)) ∧
    (∀ (w : ℚ) (i : Option ℚ) (sv : SmoothVals),
      (smoothUpdate sv w i).2.weight = some ((smoothUpdate sv w i).1.1)) ∧
    (smoothUpdate ⟨none, none⟩ 80 none).1.1 = 80 ∧
    (smoothUpdate ⟨some 80, none⟩ 82 none).1.1 = 80.4 := by
  refine ⟨rfl, ?_, ?_, ?_, ?_, ?_, ?_, ?_⟩
  · intro w i sv h
    cases i <;> simp [smoothUpdate, h, DEFAULT_EMA_ALPHA] <;> ring
  · intro w pw i sv h
    cases i <;> simp [smoothUpdate, h, DEFAULT_EMA_ALPHA]
  · intro w imp sv h
    simp [smoothUpdate, h, DEFAULT_EMA_ALPHA]
    ring
  · intro w imp pi sv h
    simp [smoothUpdate, h, DEFAULT_EMA_ALPHA]
  · intro w i sv
    cases i <;> simp [smoothUpdate]
  · norm_num [smoothUpdate, DEFAULT_EMA_ALPHA]
  · norm_num [smoothUpdate, DEFAULT_EMA_ALPHA]

/-- Witness for C7: the EMA step at raw weight 82 with previous smoothed
value 80. -/
theorem C7_ema_witness :
    (smoothUpdate ⟨some 80, none⟩ 82 none).1.1 = 0.2 * 82 + (1 - 0.2) * 80 :=
  C7_ema.2.2.1 82 80 none ⟨some 80, none⟩ rfl

/-! ## Claim C1 -/

/-- Splitting a filtered list lifts to a split of the original list whose
prefix filters to the given prefix. -/
theorem filter_split {α : Type} (f : α → Bool) :
    ∀ {l l1 l2 : List α} {p : α}, l.filter f = l1 ++ p :: l2 →
      ∃ g1 g2, l = g1 ++ p :: g2 ∧ g1.filter f = l1 := by
  intro l
  induction l with
  | nil =>
    intro l1 l2 p h
    rw [List.filter_nil] at h
    exact absurd h.symm (by simp)
  | cons a l ih =>
    intro l1 l2 p h
    by_cases hf : f a
    · rw [List.filter_cons_of_pos hf] at h
      cases l1 with
      | nil =>
        rw [List.nil_append] at h
        injection h with h1 h2
        exact ⟨[], l, by rw [h1]; rfl, rfl⟩
      | cons b l1 =>
        rw [List.cons_append] at h
        injection h with h1 h2
        obtain ⟨g1, g2, hsplit, hfil⟩ := ih h2
        refine ⟨a :: g1, g2, by rw [hsplit, List.cons_append], ?_⟩
        rw [List.filter_cons_of_pos hf, hfil, h1]
    · rw [List.filter_cons_of_neg hf] at h
      obtain ⟨g1, g2, hsplit, hfil⟩ := ih h
      refine ⟨a :: g1, g2, by rw [hsplit, List.cons_append], ?_⟩
      rw [List.filter_cons_of_neg hf, hfil]

/-- Claim C1: the matcher scores each profile as
`|weight − expected_weight|·1.5 + |impedance_or_0 − expected_impedance|·0.02`
(the definition of `score`), returns no match exactly when no profile's
score is strictly under its own tolerance, and otherwise selects the
first profile (in iteration order) attaining the globally minimal score
among those under their own tolerance, with its score; on the spec's
example (P1 expected 70 tol 8, P2 expected 90 tol 8, weight 71) it picks
P1 with score 1.5 and clamped confidence 98.5. -/
theorem C1_matcher :
    (∀ (weight : ℚ) (impedance : Option ℚ) (people : List Person),
      findBestPerson weight impedance people = none ↔
        ∀ p ∈ people, ¬ qualifies weight impedance p) ∧
    (∀ (weight : ℚ) (impedance : Option ℚ) (people : List Person) (p : Person) (s : ℚ),
      findBestPerson weight impedance people = some (p, s) →
        s = score weight impedance p ∧ p ∈ people ∧ qualifies weight impedance p ∧
        (∀ q ∈ people, qualifies weight impedance q → s ≤ score weight impedance q) ∧
        (∃ l1 l2, people = l1 ++ p :: l2 ∧
          ∀ q ∈ l1, qualifies weight impedance q → s < score weight impedance q)) ∧
    (findBestPerson 71 none [specP1, specP2] = some (specP1, 1.5) ∧
      clampConfidence 1.5 = 98.5) := by
  refine ⟨?_, ?_, ?_, ?_⟩
  · intro w i people
    rw [findBestPerson_eq]
    simp only [Option.map_eq_none']
    rw [argminBy_eq_none, List.filter_eq_nil_iff]
    simp
  · intro w i people p s h
    rw [findBestPerson_eq] at h
    obtain ⟨q, hq, heq⟩ := Option.map_eq_some'.mp h
    injection heq with h1 h2
    subst h1
    subst h2
    have hmem := argminBy_mem _ hq
    obtain ⟨hmem', hqual⟩ := List.mem_filter.mp hmem
    refine ⟨rfl, hmem', of_decide_eq_true hqual, ?_, ?_⟩
    · intro r hr hrq
      exact argminBy_min _ hq r
        (List.mem_filter.mpr ⟨hr, decide_eq_true hrq⟩)
    · obtain ⟨l1, l2, hsplit, hgt⟩ := argminBy_first _ hq
      obtain ⟨g1, g2, hg, hfil⟩ := filter_split _ hsplit
      refine ⟨g1, g2, hg, ?_⟩
      intro r hr hrq
      exact hgt r (hfil ▸ List.mem_filter.mpr ⟨hr, decide_eq_true hrq⟩)
  · have hs1 : score 71 none specP1 = 1.5 := by
      simp [score, specP1]
      norm_num
    have hs2 : score 71 none specP2 = 28.5 := by
      simp [score, specP2]
      norm_num
    rw [findBestPerson, List.foldl_cons, matchStep_none,
      if_pos (show score 71 none specP1 < specP1.tolerance by
        rw [hs1]; norm_num [specP1, DEFAULT_TOLERANCE]),
      List.foldl_cons, matchStep_some,
      if_neg (show ¬ (score 71 none specP2 < specP2.tolerance ∧
          score 71 none specP2 < score 71 none specP1) by
        rw [hs2]; norm_num [specP2, DEFAULT_TOLERANCE]),
      List.foldl_nil, hs1]
  · norm_num [clampConfidence]

/-- Witness for C1: the characterisation applied to the spec's P1/P2
example. -/
theorem C1_matcher_witness :
    (1.5 : ℚ) = score 71 none specP1 ∧ specP1 ∈ [specP1, specP2] ∧
    qualifies 71 none specP1 ∧
    (∀ q ∈ [specP1, specP2], qualifies 71 none q → (1.5 : ℚ) ≤ score 71 none q) ∧
    (∃ l1 l2, [specP1, specP2] = l1 ++ specP1 :: l2 ∧
      ∀ q ∈ l1, qualifies 71 none q → (1.5 : ℚ) < score 71 none q) :=
  C1_matcher.2.1 71 none [specP1, specP2] specP1 1.5 C1_matcher.2.2.1

/-! ## Claim C5 -/

/-- Claim C5: the trend scan returns `none` on an empty history; otherwise
it finds the (first) history entry whose timestamp is closest by absolute
delta to `now − days`, returns `none` when that entry is younger than half
the period, and otherwise `round(current_weight − entry.weight, 1)`; a
single entry exactly 7 days old with weight 75 against current weight 78
gives a 7-day trend of 3; when every entry is younger than 3.5 days the
7-day trend is unavailable. -/
theorem C5_trend :
    (∀ (now cw : ℚ) (days : ℤ), calc_weight_trend [] now cw days = none) ∧
    (∀ (entries : List HistEntry) (now cw : ℚ) (days : ℤ) (b : HistEntry) (d : ℚ),
      bestEntryFold (now - (days : ℚ) * 86400) entries = some (b, d) →
        b ∈ entries ∧ d = |b.ts - (now - (days : ℚ) * 86400)| ∧
        (∀ e ∈ entries, d ≤ |e.ts - (now - (days : ℚ) * 86400)|) ∧
        (now - b.ts < (days : ℚ) * 86400 * 0.5 →
          calc_weight_trend entries now cw days = none) ∧
        (¬ now - b.ts < (days : ℚ) * 86400 * 0.5 →
          calc_weight_trend entries now cw days
            = some (pyRoundTo 1 (cw - b.weight)))) ∧
    (∀ (entries : List HistEntry) (now cw : ℚ),
      (∀ e ∈ entries, now - e.ts < 302400) →
      calc_weight_trend entries now cw 7 = none) ∧
    (∀ now : ℚ, calc_weight_trend [⟨now - 604800, 75⟩] now 78 7 = some 3) := by
  have hhalf : ((7 : ℤ) : ℚ) * 86400 * 0.5 = 302400 := by norm_num
  have hr3 : pyRoundTo 1 (3 : ℚ) = 3 := by norm_num [pyRoundTo, pyRoundInt]
  refine ⟨?_, ?_, ?_, ?_⟩
  · intro now cw days
    simp [calc_weight_trend]
  · intro entries now cw days b d h
    rw [bestEntryFold_eq] at h
    obtain ⟨q, hq, heq⟩ := Option.map_eq_some'.mp h
    injection heq with h1 h2
    subst h1
    subst h2
    have hmem := argminBy_mem _ hq
    have hne : entries ≠ [] := by
      intro he
      rw [he] at hmem
      exact absurd hmem (List.not_mem_nil q)
    have hbf : bestEntryFold (now - (days : ℚ) * 86400) entries
        = some (q, |q.ts - (now - (days : ℚ) * 86400)|) := by
      rw [bestEntryFold_eq, hq]
      rfl
    refine ⟨hmem, rfl, ?_, ?_, ?_⟩
    · intro e he
      exact argminBy_min _ hq e he
    · intro hc
      rw [calc_weight_trend, if_neg hne, hbf]
      dsimp only
      rw [if_pos hc]
    · intro hc
      rw [calc_weight_trend, if_neg hne, hbf]
      dsimp only
      rw [if_neg hc]
  · intro entries now cw hall
    cases entries with
    | nil => simp [calc_weight_trend]
    | cons a l =>
      obtain ⟨q, hq⟩ := argminBy_isSome (fun e : HistEntry =>
        |e.ts - (now - ((7 : ℤ) : ℚ) * 86400)|) (a := a) (l := l)
      have hbf : bestEntryFold (now - ((7 : ℤ) : ℚ) * 86400) (a :: l)
          = some (q, |q.ts - (now - ((7 : ℤ) : ℚ) * 86400)|) := by
        rw [bestEntryFold_eq, hq]
        rfl
      rw [calc_weight_trend, if_neg (by simp), hbf]
      dsimp only
      rw [if_pos]
      rw [hhalf]
      exact hall q (argminBy_mem _ hq)
  · intro now
    have hbf : bestEntryFold (now - ((7 : ℤ) : ℚ) * 86400)
        [HistEntry.mk (now - 604800) 75]
        = some (HistEntry.mk (now - 604800) 75,
            |(HistEntry.mk (now - 604800) 75).ts - (now - ((7 : ℤ) : ℚ) * 86400)|) := rfl
    rw [calc_weight_trend, if_neg (by simp), hbf]
    dsimp only
    rw [if_neg (by rw [hhalf]; intro hc; norm_num at hc)]
    rw [show (78 : ℚ) - 75 = 3 by norm_num, hr3]

/-- Witness for C5: the closest-entry characterisation applied to a single
entry exactly 7 days old. -/
theorem C5_trend_witness :
    HistEntry.mk (0 : ℚ) 75 ∈ [HistEntry.mk (0 : ℚ) 75] ∧
    |(HistEntry.mk (0 : ℚ) 75).ts - ((604800 : ℚ) - ((7 : ℤ) : ℚ) * 86400)|
      = |(HistEntry.mk (0 : ℚ) 75).ts - ((604800 : ℚ) - ((7 : ℤ) : ℚ) * 86400)| ∧
    (∀ e ∈ [HistEntry.mk (0 : ℚ) 75],
      |(HistEntry.mk (0 : ℚ) 75).ts - ((604800 : ℚ) - ((7 : ℤ) : ℚ) * 86400)|
        ≤ |e.ts - ((604800 : ℚ) - ((7 : ℤ) : ℚ) * 86400)|) ∧
    ((604800 : ℚ) - (HistEntry.mk (0 : ℚ) 75).ts < ((7 : ℤ) : ℚ) * 86400 * 0.5 →
      calc_weight_trend [HistEntry.mk (0 : ℚ) 75] 604800 78 7 = none) ∧
    (¬ (604800 : ℚ) - (HistEntry.mk (0 : ℚ) 75).ts < ((7 : ℤ) : ℚ) * 86400 * 0.5 →
      calc_weight_trend [HistEntry.mk (0 : ℚ) 75] 604800 78 7
        = some (pyRoundTo 1 (78 - (HistEntry.mk (0 : ℚ) 75).weight))) :=
  C5_trend.2.1 [HistEntry.mk (0 : ℚ) 75] 604800 78 7 (HistEntry.mk (0 : ℚ) 75) _ rfl

/-! ## Claim C6 -/

theorem clamp_mem {lo hi : ℚ} (hlh : lo ≤ hi) (x : ℚ) :
    lo ≤ max lo (min hi x) ∧ max lo (min hi x) ≤ hi :=
  ⟨le_max_left _ _, max_le hlh (min_le_left _ _)⟩

theorem roundClamp1_mem {lo hi : ℚ} (hlo : pyRoundTo 1 lo = lo)
    (hhi : pyRoundTo 1 hi = hi) (hlh : lo ≤ hi) (x : ℚ) :
    lo ≤ pyRoundTo 1 (max lo (min hi x)) ∧ pyRoundTo 1 (max lo (min hi x)) ≤ hi :=
  pyRoundTo_mem_of 1 hlo hhi (le_max_left _ _) (max_le hlh (min_le_left _ _))

theorem roundIntClamp_mem {lo hi : ℚ} (hlo : ((pyRoundInt lo : ℤ) : ℚ) = lo)
    (hhi : ((pyRoundInt hi : ℤ) : ℚ) = hi) (hlh : lo ≤ hi) (x : ℚ) :
    lo ≤ ((pyRoundInt (max lo (min hi x)) : ℤ) : ℚ) ∧
      ((pyRoundInt (max lo (min hi x)) : ℤ) : ℚ) ≤ hi := by
  constructor
  · conv_lhs => rw [← hlo]
    exact_mod_cast pyRoundInt_mono (le_max_left lo (min hi x))
  · conv_rhs => rw [← hhi]
    exact_mod_cast pyRoundInt_mono (max_le hlh (min_le_left hi x))

/-- Claim C6, counterexample: at weight 0 the body-fat formula returns 0,
outside the claimed clamp range [3, 60]; and at (weight 14, height 100,
age 30, male, impedance 3000) the bone-mass output rounds down to 0.1,
strictly below the claimed lower clamp bound `max(0.1, 0.01·weight) = 0.14`:
the claim as stated (arbitrary finite inputs, bounds holding after the
final rounding) is false. -/
theorem C6_counterexample :
    calc_body_fat_pct 0 170 30 "male" 500 = 0 ∧
    ¬ (3 ≤ calc_body_fat_pct 0 170 30 "male" 500) ∧
    calc_bone_mass 14 100 30 "male" 3000 = 0.1 ∧
    calc_bone_mass 14 100 30 "male" 3000 < max 0.1 (14 * 0.01) := by
  have hfat : calc_body_fat_pct 0 170 30 "male" 500 = 0 := by
    norm_num [calc_body_fat_pct]
  have hbone : calc_bone_mass 14 100 30 "male" 3000 = 0.1 := by
    norm_num [calc_bone_mass, calc_bone_mass_unrounded, lbm_coefficient,
      pyRoundTo, pyRoundInt]
  refine ⟨hfat, by rw [hfat]; norm_num, hbone, by rw [hbone]; norm_num⟩

/-- Claim C6 (amended): for positive weight, `calc_body_fat_pct` lies in
[3, 60]; for all inputs `calc_water_pct` lies in [5, 80] and
`calc_visceral_fat` in [1, 59], after rounding. `calc_bone_mass` and
`calc_muscle_mass` respect their weight-relative clamp bounds before the
final rounding (whenever the bounds are non-degenerate: lower ≤ upper,
i.e. weight ≥ 0 for muscle), and the rounded outputs lie within 0.05 (half
a rounding ulp) of those bounds; the bounds can be violated after rounding
(and the fat bound at weight ≤ 0), as the counterexample shows. -/
theorem C6_clamp_bounds :
    (∀ (w h a : ℚ) (sex : String) (i : ℚ), 0 < w →
      3 ≤ calc_body_fat_pct w h a sex i ∧ calc_body_fat_pct w h a sex i ≤ 60) ∧
    (∀ (w h a : ℚ) (sex : String) (i : ℚ),
      5 ≤ calc_water_pct w h a sex i ∧ calc_water_pct w h a sex i ≤ 80) ∧
    (∀ (w h a : ℚ) (sex : String),
      1 ≤ calc_visceral_fat w h a sex ∧ calc_visceral_fat w h a sex ≤ 59) ∧
    (∀ (w h a : ℚ) (sex : String) (i : ℚ),
      max 0.1 (w * 0.01) ≤ min (if sex = "male" then (5.1 : ℚ) else 4.2) (w * 0.15) →
        (max 0.1 (w * 0.01) ≤ calc_bone_mass_unrounded w h a sex i ∧
          calc_bone_mass_unrounded w h a sex i
            ≤ min (if sex = "male" then (5.1 : ℚ) else 4.2) (w * 0.15)) ∧
        (max 0.1 (w * 0.01) - 0.05 ≤ calc_bone_mass w h a sex i ∧
          calc_bone_mass w h a sex i
            ≤ min (if sex = "male" then (5.1 : ℚ) else 4.2) (w * 0.15) + 0.05)) ∧
    (∀ (w h a : ℚ) (sex : String) (i : ℚ), 0 ≤ w →
      (w * 0.25 ≤ calc_muscle_mass_unrounded w h a sex i ∧
        calc_muscle_mass_unrounded w h a sex i ≤ w * 0.75) ∧
      (w * 0.25 - 0.05 ≤ calc_muscle_mass w h a sex i ∧
        calc_muscle_mass w h a sex i ≤ w * 0.75 + 0.05)) := by
  have h3 : pyRoundTo 1 (3 : ℚ) = 3 := by norm_num [pyRoundTo, pyRoundInt]
  have h60 : pyRoundTo 1 (60 : ℚ) = 60 := by norm_num [pyRoundTo, pyRoundInt]
  have h5 : pyRoundTo 1 (5 : ℚ) = 5 := by norm_num [pyRoundTo, pyRoundInt]
  have h80 : pyRoundTo 1 (80 : ℚ) = 80 := by norm_num [pyRoundTo, pyRoundInt]
  have h1i : ((pyRoundInt (1 : ℚ) : ℤ) : ℚ) = 1 := by norm_num [pyRoundInt]
  have h59i : ((pyRoundInt (59 : ℚ) : ℤ) : ℚ) = 59 := by norm_num [pyRoundInt]
  refine ⟨?_, ?_, ?_, ?_, ?_⟩
  · intro w h a sex i hw
    rw [calc_body_fat_pct, if_neg (not_le.mpr hw)]
    exact roundClamp1_mem h3 h60 (by norm_num) _
  · intro w h a sex i
    rw [calc_water_pct]
    exact roundClamp1_mem h5 h80 (by norm_num) _
  · intro w h a sex
    rw [calc_visceral_fat]
    by_cases hh : (h / 100 : ℚ) ≤ 0
    · rw [if_pos hh]
      norm_num
    · rw [if_neg hh]
      exact roundIntClamp_mem h1i h59i (by norm_num) _
  · intro w h a sex i hlh
    have hun : max 0.1 (w * 0.01) ≤ calc_bone_mass_unrounded w h a sex i ∧
        calc_bone_mass_unrounded w h a sex i
          ≤ min (if sex = "male" then (5.1 : ℚ) else 4.2) (w * 0.15) := by
      rw [calc_bone_mass_unrounded]
      exact clamp_mem hlh _
    refine ⟨hun, ?_⟩
    have habs := abs_pyRoundTo_one_sub (calc_bone_mass_unrounded w h a sex i)
    rw [abs_le] at habs
    rw [calc_bone_mass]
    constructor
    · linarith [hun.1, habs.1]
    · linarith [hun.2, habs.2]
  · intro w h a sex i hw
    have hlh : w * 0.25 ≤ w * 0.75 := by nlinarith
    have hun : w * 0.25 ≤ calc_muscle_mass_unrounded w h a sex i ∧
        calc_muscle_mass_unrounded w h a sex i ≤ w * 0.75 := by
      rw [calc_muscle_mass_unrounded]
      exact clamp_mem hlh _
    refine ⟨hun, ?_⟩
    have habs := abs_pyRoundTo_one_sub (calc_muscle_mass_unrounded w h a sex i)
    rw [abs_le] at habs
    rw [calc_muscle_mass]
    constructor
    · linarith [hun.1, habs.1]
    · linarith [hun.2, habs.2]

/-- Witness for C6 at weight 70, height 175, age 30, male, impedance 500. -/
theorem C6_clamp_bounds_witness :
    (3 ≤ calc_body_fat_pct 70 175 30 "male" 500 ∧
      calc_body_fat_pct 70 175 30 "male" 500 ≤ 60) ∧
    ((max 0.1 ((70 : ℚ) * 0.01) ≤ calc_bone_mass_unrounded 70 175 30 "male" 500 ∧
        calc_bone_mass_unrounded 70 175 30 "male" 500
          ≤ min (if "male" = "male" then (5.1 : ℚ) else 4.2) (70 * 0.15)) ∧
      (max 0.1 ((70 : ℚ) * 0.01) - 0.05 ≤ calc_bone_mass 70 175 30 "male" 500 ∧
        calc_bone_mass 70 175 30 "male" 500
          ≤ min (if "male" = "male" then (5.1 : ℚ) else 4.2) (70 * 0.15) + 0.05)) ∧
    ((70 : ℚ) * 0.25 ≤ calc_muscle_mass_unrounded 70 175 30 "male" 500 ∧
        calc_muscle_mass_unrounded 70 175 30 "male" 500 ≤ 70 * 0.75) ∧
      ((70 : ℚ) * 0.25 - 0.05 ≤ calc_muscle_mass 70 175 30 "male" 500 ∧
        calc_muscle_mass 70 175 30 "male" 500 ≤ 70 * 0.75 + 0.05) :=
  ⟨C6_clamp_bounds.1 70 175 30 "male" 500 (by norm_num),
   C6_clamp_bounds.2.2.2.1 70 175 30 "male" 500 (by norm_num),
   C6_clamp_bounds.2.2.2.2 70 175 30 "male" 500 (by norm_num)⟩

/-! ## Claim C8 -/

theorem readSensors_none_of (states : String → Option String)
    (imp : Option String) :
    ∀ {ws : Option String},
      (ws = none ∨ ws = some "" ∨ ∃ we, ws = some we ∧
        (states we = none ∨ states we = some "unknown" ∨
         states we = some "unavailable" ∨
         (∃ v, states we = some v ∧ parse_float v = none))) →
      readSensors states ws imp = none := by
  intro ws h
  rcases h with rfl | rfl | ⟨we, rfl, hc⟩
  · rfl
  · rfl
  · by_cases hwe : we = ""
    · simp [readSensors, hwe]
    · rcases hc with hs | hs | hs | ⟨v, hv, hp⟩
      · simp [readSensors, hwe, hs]
      · simp [readSensors, hwe, hs]
      · simp [readSensors, hwe, hs]
      · by_cases hv2 : v = "unknown" ∨ v = "unavailable"
        · simp [readSensors, hwe, hv, hv2]
        · simp [readSensors, hwe, hv, hv2, hp]

/-- Claim C8: when the weight entity is not configured (or empty), absent,
in an unknown/unavailable status, or its value has no leading numeric
token, and likewise when no profile matches, the tick returns the previous
snapshot set unchanged (the fresh-start fallback being the empty map),
mutates no per-slug state, fires no event and schedules no save; the model
is total, so no error is raised. -/
theorem C8_short_circuit :
    ∀ (slugifyFn : String → String) (states : String → Option String)
      (cfg : Config) (now : ℚ) (st : CoordState),
      (cfg.weight_sensor = none ∨ cfg.weight_sensor = some "" ∨
        (∃ we, cfg.weight_sensor = some we ∧
          (states we = none ∨ states we = some "unknown" ∨
           states we = some "unavailable" ∨
           (∃ v, states we = some v ∧ parse_float v = none))) ∨
        (∃ w i, readSensors states cfg.weight_sensor cfg.impedance_sensor
            = some (w, i) ∧ findBestPerson w i cfg.people = none)) →
      tick slugifyFn states cfg now st = noUpdate st ∧
      (tick slugifyFn states cfg now st).people = st.data.getD [] ∧
      (tick slugifyFn states cfg now st).events = [] ∧
      (tick slugifyFn states cfg now st).saved = false ∧
      (tick slugifyFn states cfg now st).state.smoothed = st.smoothed ∧
      (tick slugifyFn states cfg now st).state.history = st.history ∧
      (tick slugifyFn states cfg now st).state.last_matched = st.last_matched := by
  intro slugifyFn states cfg now st h
  have htick : tick slugifyFn states cfg now st = noUpdate st := by
    rcases h with h | h | ⟨we, hwe, hc⟩ | ⟨w, i, hr, hf⟩
    · exact tick_shortCircuit _ _ _ _ _
        (readSensors_none_of states cfg.impedance_sensor (Or.inl h))
    · exact tick_shortCircuit _ _ _ _ _
        (readSensors_none_of states cfg.impedance_sensor (Or.inr (Or.inl h)))
    · exact tick_shortCircuit _ _ _ _ _
        (readSensors_none_of states cfg.impedance_sensor
          (Or.inr (Or.inr ⟨we, hwe, hc⟩)))
    · exact tick_unmatched _ _ _ _ _ hr hf
  rw [htick]
  exact ⟨rfl, rfl, rfl, rfl, rfl, rfl, rfl⟩

/-- Witness for C8: a tick with no configured weight sensor. -/
theorem C8_short_circuit_witness :
    tick id (fun _ => none) ⟨none, none, [], "e1"⟩ 0
        ⟨[], [], [], none⟩
      = noUpdate ⟨[], [], [], none⟩ ∧
    (tick id (fun _ => none) ⟨none, none, [], "e1"⟩ 0
        ⟨[], [], [], none⟩).people
      = (⟨[], [], [], none⟩ : CoordState).data.getD [] ∧
    (tick id (fun _ => none) ⟨none, none, [], "e1"⟩ 0
        ⟨[], [], [], none⟩).events = [] ∧
    (tick id (fun _ => none) ⟨none, none, [], "e1"⟩ 0
        ⟨[], [], [], none⟩).saved = false ∧
    (tick id (fun _ => none) ⟨none, none, [], "e1"⟩ 0
        ⟨[], [], [], none⟩).state.smoothed
      = (⟨[], [], [], none⟩ : CoordState).smoothed ∧
    (tick id (fun _ => none) ⟨none, none, [], "e1"⟩ 0
        ⟨[], [], [], none⟩).state.history
      = (⟨[], [], [], none⟩ : CoordState).history ∧
    (tick id (fun _ => none) ⟨none, none, [], "e1"⟩ 0
        ⟨[], [], [], none⟩).state.last_matched
      = (⟨[], [], [], none⟩ : CoordState).last_matched :=
  C8_short_circuit id (fun _ => none) ⟨none, none, [], "e1"⟩ 0
    ⟨[], [], [], none⟩ (Or.inl rfl)

/-! ## Claim C10 -/

/-- Claim C10: on every tick in which a profile matches, the produced
snapshot's `last_measurement` field is the current tick's timestamp —
regardless of whether a new measurement was detected, so it tracks the
last matched tick, not the last history append. -/
theorem C10_last_measurement :
    ∀ (slugifyFn : String → String) (states : String → Option String)
      (cfg : Config) (now : ℚ) (st : CoordState) (w : ℚ) (i : Option ℚ)
      (best : Person) (bs : ℚ),
      readSensors states cfg.weight_sensor cfg.impedance_sensor = some (w, i) →
      findBestPerson w i cfg.people = some (best, bs) →
      ∃ pd,
        alookup (slugifyFn best.name)
          (tick slugifyFn states cfg now st).people = some pd ∧
        alookup "last_measurement" pd = some (some (.num now)) := by
  intro slugifyFn states cfg now st w i best bs h1 h2
  rw [tick_matched slugifyFn states cfg now st h1 h2]
  simp only [matchedTick]
  refine ⟨_, alookup_dictSet_self _ _ _, ?_⟩
  apply alookup_append_of_some
  rw [alookup_append_of_none _ (alookup_base_none _ _ _ _ _ _
    (by decide) (by decide) (by decide) (by decide) (by decide) (by decide)
    (by decide) (by decide) (by decide) (by decide) (by decide) (by decide))]
  simp [alookup]

theorem readSensors_71 :
    readSensors (fun e => if e = "sensor.w" then some "71" else none)
      (some "sensor.w") none = some (71, none) := by
  simp [readSensors, parse_float_71]

theorem findBest_71_P1 : findBestPerson 71 none [specP1] = some (specP1, 1.5) := by
  have hs1 : score 71 none specP1 = 1.5 := by
    simp [score, specP1]
    norm_num
  rw [findBestPerson, List.foldl_cons, matchStep_none,
    if_pos (show score 71 none specP1 < specP1.tolerance by
      rw [hs1]; norm_num [specP1, DEFAULT_TOLERANCE]),
    List.foldl_nil, hs1]

/-- Witness for C10: a matched tick on a fresh state; the state's
last-matched weight already equals the (seeded) smoothed weight, so no new
measurement is detected, yet last_measurement is the tick's timestamp. -/
theorem C10_last_measurement_witness :
    ∃ pd,
      alookup (id specP1.name)
        (tick id (fun e => if e = "sensor.w" then some "71" else none)
          ⟨some "sensor.w", none, [specP1], "e1"⟩ 1000
          ⟨[], [], [("P1", 71)], some []⟩).people = some pd ∧
      alookup "last_measurement" pd = some (some (.num 1000)) :=
  C10_last_measurement id (fun e => if e = "sensor.w" then some "71" else none)
    ⟨some "sensor.w", none, [specP1], "e1"⟩ 1000
    ⟨[], [], [("P1", 71)], some []⟩ 71 none specP1 1.5
    readSensors_71 findBest_71_P1

/-! ## Claim C3 -/

/-- Claim C3 (amended): a new measurement is detected exactly when no
prior last-matched weight exists for the slug or the smoothed weight moved
by strictly more than 0.1 (a change of exactly 0.1 is not new); on
detection the slug's last-matched weight becomes the current smoothed
weight, `{now, round(smoothed, 2)}` is appended to the slug's history
(trimmed to 365), a debounced save is scheduled, and one event fires
carrying the slug, the owning entry id and every non-null field of the
snapshot as computed at that point — i.e. before the last-measurement
timestamp and the trend fields are added to it; when not detected nothing
changes and no event fires. -/
theorem C3_measurement :
    (∀ (prev : Option ℚ) (sw : ℚ),
      newMeasurement prev sw = true ↔
        (prev = none ∨ ∃ pw, prev = some pw ∧ |sw - pw| > 0.1)) ∧
    (∀ (pw sw : ℚ), |sw - pw| = 0.1 → newMeasurement (some pw) sw = false) ∧
    (∀ (slug eid : String) (lm : List (String × ℚ))
      (hist : List (String × List HistEntry)) (now sw : ℚ) (pd : Snapshot),
      newMeasurement (alookup slug lm) sw = true →
        measurementBlock slug eid lm hist now sw pd
          = { last_matched := dictSet lm slug sw,
              history := dictSet hist slug
                (appendTrim ((alookup slug hist).getD [])
                  ⟨now, pyRoundTo 2 sw⟩),
              saved := true,
              events := [eventPayload slug eid pd] }) ∧
    (∀ (slug eid : String) (lm : List (String × ℚ))
      (hist : List (String × List HistEntry)) (now sw : ℚ) (pd : Snapshot),
      newMeasurement (alookup slug lm) sw = false →
        measurementBlock slug eid lm hist now sw pd
          = { last_matched := lm, history := hist,
              saved := false, events := [] }) := by
  refine ⟨?_, ?_, ?_, ?_⟩
  · intro prev sw
    cases prev with
    | none => simp [newMeasurement]
    | some pw => simp [newMeasurement]
  · intro pw sw h
    show (if |sw - pw| > 0.1 then true else false) = false
    rw [h]
    norm_num
  · intro slug eid lm hist now sw pd h
    rw [measurementBlock, if_pos h]
  · intro slug eid lm hist now sw pd h
    rw [measurementBlock, if_neg (by rw [h]; exact Bool.false_ne_true)]

/-- Witness for C3: detection on a fresh slug (no prior last-matched
weight). -/
theorem C3_measurement_witness :
    measurementBlock "P1" "e1" [] [] 1000 71 []
      = { last_matched := dictSet [] "P1" 71,
          history := dictSet [] "P1"
            (appendTrim ((alookup "P1" ([] : List (String × List HistEntry))).getD [])
              ⟨1000, pyRoundTo 2 71⟩),
          saved := true,
          events := [eventPayload "P1" "e1" []] } :=
  C3_measurement.2.2.1 "P1" "e1" [] [] 1000 71 [] rfl

theorem alookup_cons_ne {β : Type} {k k' : String} (h : k' ≠ k) (v : β)
    (rest : List (String × β)) :
    alookup k ((k', v) :: rest) = alookup k rest := by
  rw [alookup, if_neg h]

theorem measurementBlock_events_fresh (slug eid : String)
    (hist : List (String × List HistEntry)) (now sw : ℚ) (pd : Snapshot) :
    (measurementBlock slug eid [] hist now sw pd).events
      = [eventPayload slug eid pd] := rfl

/-- Claim C3, counterexample: on a concrete matched tick that detects a
new measurement, the produced snapshot's `last_measurement` field is
non-null, yet the fired event payload has no `last_measurement` key — so
the event does not carry every non-null field of the produced snapshot,
refuting the claim as stated. -/
theorem C3_counterexample :
    ∃ pd,
      alookup "P1"
        (tick id (fun e => if e = "sensor.w" then some "71" else none)
          ⟨some "sensor.w", none, [specP1], "e1"⟩ 1000
          ⟨[], [], [], none⟩).people = some pd ∧
      alookup "last_measurement" pd = some (some (.num 1000)) ∧
      (tick id (fun e => if e = "sensor.w" then some "71" else none)
          ⟨some "sensor.w", none, [specP1], "e1"⟩ 1000
          ⟨[], [], [], none⟩).events ≠ [] ∧
      ∀ ev ∈ (tick id (fun e => if e = "sensor.w" then some "71" else none)
          ⟨some "sensor.w", none, [specP1], "e1"⟩ 1000
          ⟨[], [], [], none⟩).events,
        alookup "last_measurement" ev = none := by
  rw [tick_matched id (fun e => if e = "sensor.w" then some "71" else none)
    ⟨some "sensor.w", none, [specP1], "e1"⟩ 1000 ⟨[], [], [], none⟩
    readSensors_71 findBest_71_P1]
  have hname : id specP1.name = "P1" := rfl
  simp only [matchedTick, hname]
  refine ⟨_, alookup_dictSet_self _ _ _, ?_, ?_, ?_⟩
  · apply alookup_append_of_some
    rw [alookup_append_of_none _ (alookup_base_none _ _ _ _ _ _
      (by decide) (by decide) (by decide) (by decide) (by decide) (by decide)
      (by decide) (by decide) (by decide) (by decide) (by decide) (by decide))]
    simp [alookup]
  · intro hc
    rw [measurementBlock_events_fresh] at hc
    exact absurd hc (by simp)
  · intro ev hev
    rw [measurementBlock_events_fresh] at hev
    rcases List.mem_singleton.mp hev with rfl
    rw [eventPayload,
      alookup_cons_ne (show ("person" : String) ≠ "last_measurement" by decide),
      alookup_cons_ne (show ("entry_id" : String) ≠ "last_measurement" by decide)]
    exact alookup_filterMap_none (alookup_base_none _ _ _ _ _ _
      (by decide) (by decide) (by decide) (by decide) (by decide) (by decide)
      (by decide) (by decide) (by decide) (by decide) (by decide) (by decide))

/-! ## Claim C9 -/

/-- Claim C9: the reassign-guest service handler raises a named error
synchronously when the requested entry id is not a configured coordinator,
and when it is invoked with no entry scope while no coordinators are
configured at all; otherwise it invokes the (spec-modelled) re-attribution
on the named coordinator (or on all of them), which moves the most recent
guest sample's state into the named person's history and clears it. -/
theorem C9_reassign_guest :
    (∀ (coordinators : List (String × GuestCoord)) (person eid : String),
      alookup eid coordinators = none →
        handle_reassign_guest coordinators person (some eid)
          = .error ("Config entry '" ++ eid ++ "' not found")) ∧
    (∀ person : String,
      handle_reassign_guest [] person none
        = .error "No body_metrics entries configured") ∧
    (∀ (coordinators : List (String × GuestCoord)) (person eid : String)
      (c : GuestCoord),
      alookup eid coordinators = some c →
        handle_reassign_guest coordinators person (some eid)
          = .ok (dictSet coordinators eid (reassign_guest c person))) ∧
    (∀ (coordinators : List (String × GuestCoord)) (person : String),
      coordinators ≠ [] →
        handle_reassign_guest coordinators person none
          = .ok (coordinators.map (fun kc => (kc.1, reassign_guest kc.2 person)))) ∧
    (∀ (c : GuestCoord) (person : String) (g : GuestSample),
      c.last_guest = some g →
        (reassign_guest c person).history
          = dictSet c.history person
              ((alookup person c.history).getD [] ++ [⟨g.ts, g.weight⟩]) ∧
        (reassign_guest c person).last_guest = none) := by
  refine ⟨?_, ?_, ?_, ?_, ?_⟩
  · intro coordinators person eid h
    rw [handle_reassign_guest, h]
  · intro person
    rfl
  · intro coordinators person eid c h
    rw [handle_reassign_guest, h]
  · intro coordinators person h
    rw [handle_reassign_guest, if_neg h]
  · intro c person g h
    rw [reassign_guest, h]
    exact ⟨rfl, rfl⟩

/-- Witness for C9: a reassignment naming an unknown entry id fails with
the named error. -/
theorem C9_reassign_guest_witness :
    handle_reassign_guest [] "alice" (some "entry-x")
      = .error ("Config entry '" ++ "entry-x" ++ "' not found") :=
  C9_reassign_guest.1 [] "alice" "entry-x" rfl
